import Mathlib

/-!
Verification of the FerrisBot subscriber store, interaction handlers and
scheduler loop (`src/storage.rs`, `src/main.rs`, `src/scheduler.rs`,
`src/utils.rs`), as a shallow embedding in Lean 4.

String-processing primitives used by the Rust code (`str::trim`,
`str::starts_with`, `str::replace`, `str::split_once`, `u8::from_str`) are
embedded as executable functions over `List Char`.  Telegram I/O, logging and
the weather HTTP client are external collaborators; handlers are embedded as
their effect on the subscriber table, and the scheduler tick as the list of
send/skip events it produces, parametrised by a weather oracle.
-/

/-- `UserSettings` from `src/storage.rs` (user_id, city, notification_time,
cute_mode, state). -/
structure UserSettings where
  user_id : Int
  city : Option String
  notification_time : Option String
  cute_mode : Bool
  state : Option String
deriving Repr, DecidableEq

/-- Whitespace test backing the embedding of Rust `str::trim` (modelled for
the ASCII whitespace characters; the arguments the handlers trim are plain
command arguments). -/
def rustWhitespace (c : Char) : Bool :=
  c = ' ' || c = '\t' || c = '\n' || c = '\r' || c = '\x0c'

/-- Drop leading whitespace from a character list. -/
def trimLeftCh : List Char → List Char
  | [] => []
  | c :: rest => if rustWhitespace c then trimLeftCh rest else c :: rest

/-- Embedding of Rust `str::trim` on character lists: drop leading and
trailing whitespace. -/
def trimCh (cs : List Char) : List Char :=
  (trimLeftCh (trimLeftCh cs).reverse).reverse

/-- Embedding of Rust `str::trim` on `String`. -/
def strTrim (s : String) : String := ⟨trimCh s.data⟩

/-- Embedding of Rust `str::starts_with` (first argument: the string, second:
the pattern). -/
def startsWithCh : List Char → List Char → Bool
  | _, [] => true
  | [], _ :: _ => false
  | c :: cs, p :: ps => c = p && startsWithCh cs ps

/-- Embedding of Rust `str::starts_with` on `String`. -/
def strStartsWith (s pat : String) : Bool := startsWithCh s.data pat.data

/-- Fuel-indexed worker for `replaceCh`; the fuel is the length of the input,
so the guard branch is never taken. -/
def replaceChAux (pat rep : List Char) : Nat → List Char → List Char
  | _, [] => []
  | 0, s => s
  | fuel + 1, c :: cs =>
    if startsWithCh (c :: cs) pat && !pat.isEmpty then
      rep ++ replaceChAux pat rep fuel (List.drop (pat.length - 1) cs)
    else
      c :: replaceChAux pat rep fuel cs

/-- Embedding of Rust `str::replace`: replace every non-overlapping
occurrence of `pat`, scanning left to right. -/
def replaceCh (pat rep s : List Char) : List Char :=
  replaceChAux pat rep s.length s

/-- Embedding of Rust `str::replace` on `String`. -/
def strReplace (s pat rep : String) : String := ⟨replaceCh pat.data rep.data s.data⟩

/-- ASCII-digit test used by the embedding of `u8::from_str` (Rust accepts
exactly the ASCII digits `0`-`9`). -/
def isDigitCh (c : Char) : Bool := 48 ≤ c.toNat && c.toNat ≤ 57

/-- Drop one leading `'+'` sign, as Rust unsigned-integer parsing does. -/
def stripPlus : List Char → List Char
  | [] => []
  | c :: rest => if c = '+' then rest else c :: rest

/-- Numeric value of a digit string (most significant digit first). -/
def digitsVal (cs : List Char) : Nat :=
  cs.foldl (fun a c => a * 10 + (c.toNat - 48)) 0

/-- Embedding of Rust `u8::from_str`: optional leading `'+'`, then one or
more ASCII digits, value at most 255; anything else is a parse error. -/
def parseU8Ch (cs : List Char) : Option Nat :=
  let ds := stripPlus cs
  if ds.isEmpty then none
  else if ds.all isDigitCh then
    if digitsVal ds < 256 then some (digitsVal ds) else none
  else none

/-- Embedding of Rust `str::split_once(':')`: split at the first colon;
`none` when no colon occurs. -/
def splitOnceColon : List Char → Option (List Char × List Char)
  | [] => none
  | c :: cs =>
    if c = ':' then some ([], cs)
    else
      match splitOnceColon cs with
      | some (l, r) => some (c :: l, r)
      | none => none

/-- Character-level body of `is_valid_time_format`: split once on `':'`,
parse both sides as `u8`, and require hours `< 24` and minutes `< 60`. -/
def is_valid_time_format_core (cs : List Char) : Bool :=
  match splitOnceColon cs with
  | some (hs, ms) =>
    match parseU8Ch hs, parseU8Ch ms with
    | some hours, some minutes => decide (hours < 24) && decide (minutes < 60)
    | _, _ => false
  | none => false

/-- `is_valid_time_format` from `src/main.rs`. -/
def is_valid_time_format (time : String) : Bool :=
  is_valid_time_format_core time.data

/-- The spec's notion of a well-formed `HH:MM` string: exactly two digits, a
colon, two digits, with `0 ≤ HH < 24` and `0 ≤ MM < 60`.  Written from the
spec's words for comparison with `is_valid_time_format`. -/
def wellFormedHHMM : List Char → Bool
  | [h1, h2, c, m1, m2] =>
    c = ':' && isDigitCh h1 && isDigitCh h2 && isDigitCh m1 && isDigitCh m2 &&
      decide ((h1.toNat - 48) * 10 + (h2.toNat - 48) < 24) &&
      decide ((m1.toNat - 48) * 10 + (m2.toNat - 48) < 60)
  | _ => false

example : is_valid_time_format "08:30" = true := by decide
example : is_valid_time_format "24:00" = false := by decide
example : is_valid_time_format "9:5" = true := by decide
example : wellFormedHHMM ("9:5").data = false := by decide

/-! ## SubscriberStore (`src/storage.rs`) -/

/-- `data.iter().find(|u| u.user_id == user_id)` from `get_user`. -/
def findUser : List UserSettings → Int → Option UserSettings
  | [], _ => none
  | u :: rest, uid => if u.user_id == uid then some u else findUser rest uid

/-- `data.iter().position(pred)` from `save_user`. -/
def position (p : UserSettings → Bool) : List UserSettings → Option Nat
  | [] => none
  | u :: rest => if p u then some 0 else (position p rest).map (· + 1)

/-- The in-memory effect of `JsonStorage::save_user`: replace the record at
the first position holding the same `user_id`, else append. -/
def saveUserData (data : List UserSettings) (user : UserSettings) : List UserSettings :=
  match position (fun u => u.user_id == user.user_id) data with
  | some pos => data.set pos user
  | none => data ++ [user]

/-- `JsonStorage`: the in-memory table plus the persisted backing file.  The
backing file's `serde_json` array is modelled abstractly as the list of
records it decodes to: the codec is a derived external-library serializer
(out of scope per the spec), and `save_to_file` is modelled on its success
path. -/
structure JsonStorage where
  data : List UserSettings
  fileData : List UserSettings
deriving Repr, DecidableEq

/-- `JsonStorage::get_user`. -/
def get_user (s : JsonStorage) (uid : Int) : Option UserSettings :=
  findUser s.data uid

/-- `JsonStorage::save_user`: upsert in memory, then rewrite the backing
file with the updated table (`save_to_file`, success path). -/
def save_user (s : JsonStorage) (user : UserSettings) : JsonStorage :=
  let d := saveUserData s.data user
  ⟨d, d⟩

/-- `JsonStorage::get_all_users`. -/
def get_all_users (s : JsonStorage) : List UserSettings := s.data

/-- Re-initialising the store from its persisted file (`JsonStorage::new` on
a well-formed backing file holding `fileData`). -/
def reloadStorage (s : JsonStorage) : JsonStorage :=
  ⟨s.fileData, s.fileData⟩

/-- Boolean uniqueness of `user_id` across the table. -/
def uidsUniqueB : List UserSettings → Bool
  | [] => true
  | u :: rest => rest.all (fun v => !(v.user_id == u.user_id)) && uidsUniqueB rest

/-- The spec's table invariant: `subscriber_id` unique across the table. -/
def uidsUnique (l : List UserSettings) : Prop := uidsUniqueB l = true

lemma saveUserData_nil (r : UserSettings) : saveUserData [] r = [r] := rfl

lemma saveUserData_cons_hit {d r : UserSettings} {ds : List UserSettings}
    (h : (d.user_id == r.user_id) = true) :
    saveUserData (d :: ds) r = r :: ds := by
  simp [saveUserData, position, h]

lemma saveUserData_cons_miss {d r : UserSettings} {ds : List UserSettings}
    (h : (d.user_id == r.user_id) = false) :
    saveUserData (d :: ds) r = d :: saveUserData ds r := by
  have hp : position (fun u => u.user_id == r.user_id) (d :: ds)
      = (position (fun u => u.user_id == r.user_id) ds).map (· + 1) := by
    simp [position, h]
  cases hpos : position (fun u => u.user_id == r.user_id) ds with
  | none => simp [saveUserData, hp, hpos]
  | some j => simp [saveUserData, hp, hpos, List.set]

lemma uidsUniqueB_cons (u : UserSettings) (rest : List UserSettings) :
    uidsUniqueB (u :: rest)
      = (rest.all (fun v => !(v.user_id == u.user_id)) && uidsUniqueB rest) := rfl

lemma uidsUnique_tail {u : UserSettings} {rest : List UserSettings}
    (h : uidsUnique (u :: rest)) : uidsUnique rest := by
  unfold uidsUnique at h ⊢
  rw [uidsUniqueB_cons, Bool.and_eq_true] at h
  exact h.2

lemma uidsUnique_head {u : UserSettings} {rest : List UserSettings}
    (h : uidsUnique (u :: rest)) :
    ∀ v ∈ rest, (v.user_id == u.user_id) = false := by
  intro v hv
  unfold uidsUnique at h
  rw [uidsUniqueB_cons, Bool.and_eq_true] at h
  have := List.all_eq_true.mp h.1 v hv
  simpa using this

lemma findUser_saveUserData (d : List UserSettings) (r : UserSettings) :
    findUser (saveUserData d r) r.user_id = some r := by
  induction d with
  | nil => simp [saveUserData_nil, findUser]
  | cons u ds ih =>
    cases h : u.user_id == r.user_id with
    | true =>
      rw [saveUserData_cons_hit h]
      simp [findUser]
    | false =>
      rw [saveUserData_cons_miss h, findUser, h]
      simpa using ih

lemma mem_saveUserData {u : UserSettings} {d : List UserSettings} {r : UserSettings}
    (h : u ∈ saveUserData d r) : u ∈ d ∨ u = r := by
  induction d with
  | nil => simp [saveUserData_nil] at h; simp [h]
  | cons v ds ih =>
    cases hv : v.user_id == r.user_id with
    | true =>
      rw [saveUserData_cons_hit hv] at h
      rcases List.mem_cons.mp h with h | h
      · exact Or.inr h
      · exact Or.inl (List.mem_cons_of_mem _ h)
    | false =>
      rw [saveUserData_cons_miss hv] at h
      rcases List.mem_cons.mp h with h | h
      · exact Or.inl (h ▸ List.mem_cons_self _ _)
      · rcases ih h with h | h
        · exact Or.inl (List.mem_cons_of_mem _ h)
        · exact Or.inr h

lemma saveUserData_idem (d : List UserSettings) (r : UserSettings) :
    saveUserData (saveUserData d r) r = saveUserData d r := by
  induction d with
  | nil =>
    rw [saveUserData_nil]
    exact saveUserData_cons_hit (by simp)
  | cons u ds ih =>
    cases h : u.user_id == r.user_id with
    | true =>
      rw [saveUserData_cons_hit h]
      exact saveUserData_cons_hit (by simp)
    | false =>
      rw [saveUserData_cons_miss h, saveUserData_cons_miss h, ih]

lemma countP_saveUserData (d : List UserSettings) (r : UserSettings)
    (hu : uidsUnique d) :
    (saveUserData d r).countP (fun u => u.user_id == r.user_id) = 1 := by
  induction d with
  | nil => simp [saveUserData_nil, List.countP_cons]
  | cons u ds ih =>
    have hu' : uidsUnique ds := uidsUnique_tail hu
    have hall := uidsUnique_head hu
    cases h : u.user_id == r.user_id with
    | true =>
      rw [saveUserData_cons_hit h]
      have hr : u.user_id = r.user_id := by simpa using h
      rw [List.countP_cons]
      simp only [beq_self_eq_true, if_true]
      have hz : ds.countP (fun v => v.user_id == r.user_id) = 0 := by
        rw [List.countP_eq_zero]
        intro v hv
        have := hall v hv
        simp only [beq_eq_false_iff_ne] at this
        simp only [Bool.not_eq_true, beq_eq_false_iff_ne, ← hr]
        exact this
      omega
    | false =>
      rw [saveUserData_cons_miss h, List.countP_cons, ih hu']
      simp [h]

lemma uidsUnique_saveUserData (d : List UserSettings) (r : UserSettings)
    (hu : uidsUnique d) : uidsUnique (saveUserData d r) := by
  induction d with
  | nil =>
    rw [saveUserData_nil]
    simp [uidsUnique, uidsUniqueB]
  | cons u ds ih =>
    have hu' : uidsUnique ds := uidsUnique_tail hu
    have hall := uidsUnique_head hu
    cases h : u.user_id == r.user_id with
    | true =>
      rw [saveUserData_cons_hit h]
      have hr : u.user_id = r.user_id := by simpa using h
      unfold uidsUnique
      rw [uidsUniqueB_cons, Bool.and_eq_true]
      refine ⟨List.all_eq_true.mpr ?_, hu'⟩
      intro v hv
      have := hall v hv
      simp only [beq_eq_false_iff_ne] at this
      simp only [Bool.not_eq_eq_eq_not, Bool.not_true, beq_eq_false_iff_ne, ← hr]
      exact this
    | false =>
      rw [saveUserData_cons_miss h]
      unfold uidsUnique
      rw [uidsUniqueB_cons, Bool.and_eq_true]
      refine ⟨List.all_eq_true.mpr ?_, ih hu'⟩
      intro v hv
      rcases mem_saveUserData hv with hv | hv
      · have := hall v hv
        simpa using this
      · subst hv
        simp only [beq_eq_false_iff_ne] at h
        simp only [Bool.not_eq_eq_eq_not, Bool.not_true, beq_eq_false_iff_ne]
        exact Ne.symm h

/-! ## Interaction handlers (`src/main.rs`): effect on the subscriber table -/

/-- The get-or-default record every handler constructs
(`unwrap_or_else(|| UserSettings { user_id, city: None, … })`). -/
def defaultUser (uid : Int) : UserSettings := ⟨uid, none, none, false, none⟩

/-- `storage.get_user(user_id).await.unwrap_or_else(default)`. -/
def getOrDefault (data : List UserSettings) (uid : Int) : UserSettings :=
  (findUser data uid).getD (defaultUser uid)

/-- Effect of `set_city` on the table: empty argument shows the keyboard,
`"manual"` shows a prompt (no write); otherwise the trimmed argument is
written as the city.  The record's other fields — including `state` — are
left as they were. -/
def setCityUpdate (data : List UserSettings) (uid : Int) (city_arg : String) :
    List UserSettings :=
  if strTrim city_arg = "" then data
  else if strTrim city_arg = "manual" then data
  else saveUserData data { getOrDefault data uid with city := some (strTrim city_arg) }

/-- Effect of `set_time` on the table: empty argument shows the keyboard,
`"manual"` shows a prompt, an argument failing `is_valid_time_format` is
rejected (no write); otherwise the trimmed argument is written as the
notification time.  The record's other fields — including `state` — are left
as they were. -/
def setTimeUpdate (data : List UserSettings) (uid : Int) (time_arg : String) :
    List UserSettings :=
  if strTrim time_arg = "" then data
  else if strTrim time_arg = "manual" then data
  else if is_valid_time_format (strTrim time_arg) then
    saveUserData data
      { getOrDefault data uid with notification_time := some (strTrim time_arg) }
  else data

/-- Effect of the tail of `handle_message` (after the state checks): the
secret codes toggling `cute_mode`; any other text only gets a canned reply. -/
def fallthroughUpdate (data : List UserSettings) (uid : Int) (text : String) :
    List UserSettings :=
  if strTrim text = "<3cute<3" then
    saveUserData data { getOrDefault data uid with cute_mode := true }
  else if strTrim text = "/std" then
    if (getOrDefault data uid).cute_mode then
      saveUserData data { getOrDefault data uid with cute_mode := false }
    else data
  else data

/-- Effect of `handle_message` on the table: free text is interpreted by the
per-user `state` — `"waiting_for_time"` stores the trimmed text as the
notification time when it passes `is_valid_time_format` (resetting the
state), `"waiting_for_city"` stores non-empty trimmed text as the city
(resetting the state); otherwise control falls through to the secret-code
handling. -/
def handleMessageUpdate (data : List UserSettings) (uid : Int) (text : String) :
    List UserSettings :=
  match findUser data uid with
  | some user_data =>
    match user_data.state with
    | some st =>
      if st = "waiting_for_time" then
        if is_valid_time_format (strTrim text) then
          saveUserData data
            { user_data with notification_time := some (strTrim text), state := none }
        else data
      else if st = "waiting_for_city" then
        if strTrim text = "" then data
        else saveUserData data { user_data with city := some (strTrim text), state := none }
      else fallthroughUpdate data uid text
    | none => fallthroughUpdate data uid text
  | none => fallthroughUpdate data uid text

/-- Effect of `handle_callback_query` on the table: `city_manual` /
`time_manual` set the waiting state; any other `city_…` / `time_…` payload
has the prefix removed by `str::replace` and the remainder stored — with no
validation on the `time_…` path — resetting the state. -/
def handleCallbackUpdate (data : List UserSettings) (uid : Int) (cb : String) :
    List UserSettings :=
  if strStartsWith cb "city_" then
    if cb = "city_manual" then
      saveUserData data { getOrDefault data uid with state := some "waiting_for_city" }
    else
      saveUserData data
        { getOrDefault data uid with city := some (strReplace cb "city_" ""), state := none }
  else if strStartsWith cb "time_" then
    if cb = "time_manual" then
      saveUserData data { getOrDefault data uid with state := some "waiting_for_time" }
    else
      saveUserData data
        { getOrDefault data uid with
            notification_time := some (strReplace cb "time_" ""), state := none }
  else data

/-- The callback payloads generated by `get_time_keyboard`. -/
def timeKeyboardPayloads : List String :=
  ["time_06:00", "time_07:00", "time_08:00", "time_09:00", "time_12:00",
   "time_14:00", "time_16:00", "time_18:00", "time_20:00", "time_22:00"]

/-- The spec's store invariant: every stored `notification_time` passes the
`HH:MM` validity check. -/
def timesValid (data : List UserSettings) : Prop :=
  ∀ u ∈ data, ∀ t, u.notification_time = some t → is_valid_time_format t = true

lemma findUser_mem {d : List UserSettings} {uid : Int} {u : UserSettings}
    (h : findUser d uid = some u) : u ∈ d := by
  induction d with
  | nil => simp [findUser] at h
  | cons v ds ih =>
    by_cases hv : (v.user_id == uid) = true
    · simp [findUser, hv] at h
      simp [h]
    · rw [findUser, if_neg hv] at h
      exact List.mem_cons_of_mem _ (ih h)

lemma findUser_uid {d : List UserSettings} {uid : Int} {u : UserSettings}
    (h : findUser d uid = some u) : u.user_id = uid := by
  induction d with
  | nil => simp [findUser] at h
  | cons v ds ih =>
    by_cases hv : (v.user_id == uid) = true
    · simp [findUser, hv] at h
      subst h
      simpa using hv
    · rw [findUser, if_neg hv] at h
      exact ih h

lemma getOrDefault_uid (d : List UserSettings) (uid : Int) :
    (getOrDefault d uid).user_id = uid := by
  unfold getOrDefault
  cases h : findUser d uid with
  | none => simp [defaultUser]
  | some u => simpa using findUser_uid h

lemma timesValid_save {d : List UserSettings} {r : UserSettings}
    (hd : timesValid d)
    (hr : ∀ t, r.notification_time = some t → is_valid_time_format t = true) :
    timesValid (saveUserData d r) := by
  intro u hu t ht
  rcases mem_saveUserData hu with h | h
  · exact hd u h t ht
  · exact hr t (h ▸ ht)

lemma timesValid_getOrDefault {d : List UserSettings} (uid : Int)
    (hd : timesValid d) :
    ∀ t, (getOrDefault d uid).notification_time = some t →
      is_valid_time_format t = true := by
  intro t ht
  unfold getOrDefault at ht
  cases h : findUser d uid with
  | none => rw [h] at ht; simp [defaultUser] at ht
  | some u =>
    rw [h] at ht
    exact hd u (findUser_mem h) t ht

lemma setTimeUpdate_timesValid {data : List UserSettings} (uid : Int)
    (arg : String) (hd : timesValid data) :
    timesValid (setTimeUpdate data uid arg) := by
  unfold setTimeUpdate
  split_ifs with h1 h2 h3
  · exact hd
  · exact hd
  · refine timesValid_save hd ?_
    intro t ht
    simp only [Option.some.injEq] at ht
    exact ht ▸ h3
  · exact hd

lemma fallthroughUpdate_timesValid {data : List UserSettings} (uid : Int)
    (text : String) (hd : timesValid data) :
    timesValid (fallthroughUpdate data uid text) := by
  unfold fallthroughUpdate
  split_ifs with h1 h2 h3
  · exact timesValid_save hd (fun t ht => timesValid_getOrDefault uid hd t ht)
  · exact timesValid_save hd (fun t ht => timesValid_getOrDefault uid hd t ht)
  · exact hd
  · exact hd

lemma handleMessageUpdate_timesValid {data : List UserSettings} (uid : Int)
    (text : String) (hd : timesValid data) :
    timesValid (handleMessageUpdate data uid text) := by
  unfold handleMessageUpdate
  split
  · next user_data hf =>
    split
    · next st hs =>
      split_ifs with h1 h2 h3 h4
      · refine timesValid_save hd ?_
        intro t ht
        simp only [Option.some.injEq] at ht
        exact ht ▸ h2
      · exact hd
      · exact hd
      · exact timesValid_save hd
          (fun t ht => hd user_data (findUser_mem hf) t ht)
      · exact fallthroughUpdate_timesValid uid text hd
    · exact fallthroughUpdate_timesValid uid text hd
  · exact fallthroughUpdate_timesValid uid text hd

lemma handleCallbackUpdate_timesValid {data : List UserSettings} (uid : Int)
    (cb : String) (hd : timesValid data)
    (hcb : strStartsWith cb "time_" = true → cb ≠ "time_manual" →
      is_valid_time_format (strReplace cb "time_" "") = true) :
    timesValid (handleCallbackUpdate data uid cb) := by
  unfold handleCallbackUpdate
  split_ifs with h1 h2 h3 h4
  · exact timesValid_save hd (fun t ht => timesValid_getOrDefault uid hd t ht)
  · exact timesValid_save hd (fun t ht => timesValid_getOrDefault uid hd t ht)
  · exact timesValid_save hd (fun t ht => timesValid_getOrDefault uid hd t ht)
  · refine timesValid_save hd ?_
    intro t ht
    simp only [Option.some.injEq] at ht
    exact ht ▸ hcb h3 h4
  · exact hd

/-! ## Claim theorems: store laws -/

/-- **C4**: round-trip law for the store — `save_user(r)` followed by
`get_user(r.user_id)` returns `some r`, both against the live table and
after the store is re-initialised from the persisted file. -/
theorem store_round_trip (s : JsonStorage) (r : UserSettings) :
    get_user (save_user s r) r.user_id = some r
    ∧ get_user (reloadStorage (save_user s r)) r.user_id = some r := by
  refine ⟨?_, ?_⟩ <;>
    simp [get_user, save_user, reloadStorage, findUser_saveUserData]

/-- **C5**: on a table with unique `user_id`s, `save_user` applied twice with
the identical record equals `save_user` applied once, the resulting table
holds exactly one entry for that `user_id`, and uniqueness of `user_id` is
preserved (no duplicate is ever introduced). -/
theorem save_user_idempotent_unique (s : JsonStorage) (r : UserSettings)
    (hu : uidsUnique (get_all_users s)) :
    save_user (save_user s r) r = save_user s r
    ∧ (get_all_users (save_user s r)).countP (fun u => u.user_id == r.user_id) = 1
    ∧ uidsUnique (get_all_users (save_user s r)) := by
  refine ⟨?_, ?_, ?_⟩
  · show (⟨saveUserData (saveUserData s.data r) r, saveUserData (saveUserData s.data r) r⟩
       : JsonStorage) = ⟨saveUserData s.data r, saveUserData s.data r⟩
    rw [saveUserData_idem]
  · exact countP_saveUserData s.data r hu
  · exact uidsUnique_saveUserData s.data r hu

/-- Sample record used by concrete witnesses. -/
def sampleUser : UserSettings := ⟨1, none, none, false, none⟩

/-- Witness for **C5** at a concrete store and record. -/
theorem save_user_idempotent_unique_witness :
    uidsUnique (get_all_users ⟨[], []⟩)
    ∧ (save_user (save_user ⟨[], []⟩ sampleUser) sampleUser = save_user ⟨[], []⟩ sampleUser
       ∧ (get_all_users (save_user ⟨[], []⟩ sampleUser)).countP
           (fun u => u.user_id == sampleUser.user_id) = 1
       ∧ uidsUnique (get_all_users (save_user ⟨[], []⟩ sampleUser))) :=
  ⟨rfl, save_user_idempotent_unique ⟨[], []⟩ sampleUser rfl⟩

/-! ## Claim theorems: the `delivery_time` validity invariant -/

/-- **C1 counterexample**: the inline-keyboard callback handler performs no
validation — the payload `"time_99:99"` stores the malformed time `"99:99"`,
so the handler does not preserve the invariant for arbitrary callback data. -/
theorem notification_time_invariant_counterexample :
    ¬ timesValid (handleCallbackUpdate [] 1 "time_99:99") := by
  intro h
  have he : handleCallbackUpdate [] 1 "time_99:99"
      = [⟨1, none, some "99:99", false, none⟩] := by decide
  have hv := h ⟨1, none, some "99:99", false, none⟩
    (by rw [he]; exact List.mem_singleton.mpr rfl) "99:99" rfl
  exact absurd hv (by decide)

/-- **C1** (amended): the command handler and the free-text handler preserve
the `delivery_time` validity invariant for every input; the callback handler
preserves it provided the payload's time (the data with the `time_` prefix
removed) passes the validity check — which holds for every payload the
built-in time keyboard generates — but not for arbitrary callback data. -/
theorem notification_time_invariant
    (data : List UserSettings) (uid : Int) (arg text cb : String)
    (hd : timesValid data)
    (hcb : strStartsWith cb "time_" = true → cb ≠ "time_manual" →
      is_valid_time_format (strReplace cb "time_" "") = true) :
    timesValid (setTimeUpdate data uid arg)
    ∧ timesValid (handleMessageUpdate data uid text)
    ∧ timesValid (handleCallbackUpdate data uid cb)
    ∧ timeKeyboardPayloads.all
        (fun p => is_valid_time_format (strReplace p "time_" "")) = true :=
  ⟨setTimeUpdate_timesValid uid arg hd,
   handleMessageUpdate_timesValid uid text hd,
   handleCallbackUpdate_timesValid uid cb hd hcb,
   by decide⟩

/-- Witness for **C1** at concrete inputs. -/
theorem notification_time_invariant_witness :
    (timesValid ([] : List UserSettings)
     ∧ (strStartsWith "time_08:00" "time_" = true → "time_08:00" ≠ "time_manual" →
        is_valid_time_format (strReplace "time_08:00" "time_" "") = true))
    ∧ timesValid (setTimeUpdate [] 1 "08:00")
    ∧ timesValid (handleMessageUpdate [] 1 "hello")
    ∧ timesValid (handleCallbackUpdate [] 1 "time_08:00")
    ∧ timeKeyboardPayloads.all
        (fun p => is_valid_time_format (strReplace p "time_" "")) = true :=
  ⟨⟨fun u hu => absurd hu (List.not_mem_nil u), fun _ _ => by decide⟩,
   notification_time_invariant [] 1 "08:00" "hello" "time_08:00"
     (fun u hu => absurd hu (List.not_mem_nil u)) (fun _ _ => by decide)⟩

/-! ## Claim theorems: inline commands and the pending-input state -/

/-- A record whose pending-input state awaits a time. -/
def pendingTimeUser : UserSettings := ⟨1, none, none, false, some "waiting_for_time"⟩

/-- **C3 counterexample**: handling `/city Springfield` for a user whose
state is `waiting_for_time` writes the city but leaves the state equal to
`waiting_for_time`, not `None` — the inline command does not collapse the
state machine to Idle. -/
theorem command_bypass_counterexample :
    findUser (setCityUpdate [pendingTimeUser] 1 "Springfield") 1
      = some ⟨1, some "Springfield", none, false, some "waiting_for_time"⟩
    ∧ (⟨1, some "Springfield", none, false, some "waiting_for_time"⟩
        : UserSettings).state ≠ none := by
  decide

/-- **C3** (amended): a configure-location or configure-time command with a
valid inline argument writes the new value immediately, but leaves the
record's `pending_input` state exactly as it was before the command — the
state is Idle afterwards only if it already was. -/
theorem command_inline_write_state_preserved
    (data : List UserSettings) (uid : Int) (arg : String)
    (h1 : strTrim arg ≠ "") (h2 : strTrim arg ≠ "manual") :
    findUser (setCityUpdate data uid arg) uid
      = some { getOrDefault data uid with city := some (strTrim arg) }
    ∧ (is_valid_time_format (strTrim arg) = true →
       findUser (setTimeUpdate data uid arg) uid
         = some { getOrDefault data uid with notification_time := some (strTrim arg) }) := by
  constructor
  · unfold setCityUpdate
    rw [if_neg h1, if_neg h2]
    have h := findUser_saveUserData data
      { getOrDefault data uid with city := some (strTrim arg) }
    have hr : ({ getOrDefault data uid with city := some (strTrim arg) }
        : UserSettings).user_id = uid := getOrDefault_uid data uid
    rw [hr] at h
    exact h
  · intro hv
    unfold setTimeUpdate
    rw [if_neg h1, if_neg h2, if_pos hv]
    have h := findUser_saveUserData data
      { getOrDefault data uid with notification_time := some (strTrim arg) }
    have hr : ({ getOrDefault data uid with notification_time := some (strTrim arg) }
        : UserSettings).user_id = uid := getOrDefault_uid data uid
    rw [hr] at h
    exact h

/-- Witness for **C3** at a concrete record in the `waiting_for_time`
state. -/
theorem command_inline_write_state_preserved_witness :
    (strTrim "Springfield" ≠ "" ∧ strTrim "Springfield" ≠ "manual")
    ∧ findUser (setCityUpdate [pendingTimeUser] 1 "Springfield") 1
        = some { getOrDefault [pendingTimeUser] 1 with city := some (strTrim "Springfield") }
    ∧ (is_valid_time_format (strTrim "Springfield") = true →
       findUser (setTimeUpdate [pendingTimeUser] 1 "Springfield") 1
         = some { getOrDefault [pendingTimeUser] 1 with
                    notification_time := some (strTrim "Springfield") }) :=
  ⟨⟨by decide, by decide⟩,
   (command_inline_write_state_preserved [pendingTimeUser] 1 "Springfield"
     (by decide) (by decide)).1,
   (command_inline_write_state_preserved [pendingTimeUser] 1 "Springfield"
     (by decide) (by decide)).2⟩

/-! ## Claim theorems: the time-format validator -/

lemma isDigitCh_bounds {c : Char} (h : isDigitCh c = true) :
    48 ≤ c.toNat ∧ c.toNat ≤ 57 := by
  simp only [isDigitCh, Bool.and_eq_true, decide_eq_true_eq] at h
  exact h

lemma isDigitCh_ne_colon {c : Char} (h : isDigitCh c = true) : ¬ (c = ':') := by
  intro he
  subst he
  exact absurd h (by decide)

lemma isDigitCh_ne_plus {c : Char} (h : isDigitCh c = true) : ¬ (c = '+') := by
  intro he
  subst he
  exact absurd h (by decide)

lemma parseU8Ch_two_digits {c1 c2 : Char}
    (h1 : isDigitCh c1 = true) (h2 : isDigitCh c2 = true) :
    parseU8Ch [c1, c2] = some ((c1.toNat - 48) * 10 + (c2.toNat - 48)) := by
  have b1 := isDigitCh_bounds h1
  have b2 := isDigitCh_bounds h2
  have hval : digitsVal [c1, c2] = (c1.toNat - 48) * 10 + (c2.toNat - 48) := by
    simp [digitsVal, List.foldl]
  have hlt : digitsVal [c1, c2] < 256 := by
    rw [hval]
    omega
  have hp : ¬ (c1 = '+') := isDigitCh_ne_plus h1
  simp [parseU8Ch, stripPlus, hp, h1, h2, hval, hlt]
  omega

lemma valid_core_of_wellFormed (cs : List Char) (h : wellFormedHHMM cs = true) :
    is_valid_time_format_core cs = true := by
  unfold wellFormedHHMM at h
  split at h
  · next c1 c2 c c4 c5 =>
    simp only [Bool.and_eq_true, decide_eq_true_eq] at h
    obtain ⟨⟨⟨⟨⟨⟨hc, h1⟩, h2⟩, h3⟩, h4⟩, hh⟩, hm⟩ := h
    subst hc
    have hs1 : splitOnceColon [c1, c2, ':', c4, c5] = some ([c1, c2], [c4, c5]) := by
      simp [splitOnceColon, isDigitCh_ne_colon h1, isDigitCh_ne_colon h2]
    simp only [is_valid_time_format_core, hs1, parseU8Ch_two_digits h1 h2,
      parseU8Ch_two_digits h3 h4]
    simp [hh, hm]
  · exact absurd h (by simp)

/-- **C2 counterexample**: the validator accepts `"9:5"`, which is not in
two-digit `HH:MM` shape — the claim that every string outside that shape is
rejected fails. -/
theorem time_validator_counterexample :
    is_valid_time_format "9:5" = true ∧ wellFormedHHMM ("9:5").data = false := by
  decide

/-- **C2** (amended): every well-formed two-digit `HH:MM` string with
`0 ≤ HH < 24`, `0 ≤ MM < 60` is accepted, and malformed strings such as
`"24:00"`, `"9:60"`, `"abc"` and `""` are rejected; but the validator also
accepts some strings outside two-digit shape, e.g. `"9:5"` (either side may
be any decimal `u8` literal, so one-digit or zero-padded components and a
leading `+` pass as well). -/
theorem time_validator_amended :
    (∀ s : String, wellFormedHHMM s.data = true → is_valid_time_format s = true)
    ∧ is_valid_time_format "24:00" = false
    ∧ is_valid_time_format "9:60" = false
    ∧ is_valid_time_format "abc" = false
    ∧ is_valid_time_format "" = false
    ∧ is_valid_time_format "9:5" = true :=
  ⟨fun s h => valid_core_of_wellFormed s.data h,
   by decide, by decide, by decide, by decide, by decide⟩

/-- Witness for **C2** at the concrete well-formed string `"08:30"`. -/
theorem time_validator_witness :
    wellFormedHHMM ("08:30").data = true ∧ is_valid_time_format "08:30" = true :=
  ⟨by decide, time_validator_amended.1 "08:30" (by decide)⟩

/-! ## SchedulerLoop (`src/scheduler.rs`): one tick as a list of events

One iteration of `start_scheduler`'s loop is embedded as the list of
observable per-subscriber events it produces, parametrised by a weather
oracle `w : String → Except String String` standing for
`weather_client.get_weather(city)`.  The embedding is a total function, so a
fetch failure cannot abort the tick; what the code does on failure shows up
as the events it emits. -/

/-- Observable per-subscriber events of one scheduler tick. -/
inductive SchedEvent where
  | massSent (uid : Int) : SchedEvent
  | massFetchFail (uid : Int) : SchedEvent
  | personalSent (uid : Int) : SchedEvent
  | personalError (uid : Int) : SchedEvent
  | skipNoCity (uid : Int) : SchedEvent
deriving Repr, DecidableEq

/-- The subscriber id an event concerns. -/
def eventUid : SchedEvent → Int
  | .massSent u => u
  | .massFetchFail u => u
  | .personalSent u => u
  | .personalError u => u
  | .skipNoCity u => u

/-- Zero-padded two-digit rendering of one clock component, as chrono's
`%H` / `%M`. -/
def pad2 (n : Nat) : String :=
  if n < 10 then "0" ++ toString n else toString n

/-- `now.format("%H:%M")`. -/
def formatHHMM (h m : Nat) : String := pad2 h ++ ":" ++ pad2 m

/-- `(hours == 12 || hours == 18) && minutes == 0` from `start_scheduler`. -/
def is_mass_notification_time (hours minutes : Nat) : Bool :=
  (hours == 12 || hours == 18) && minutes == 0

/-- The personal-delivery body of the tick for one subscriber
(`scheduler.rs` lines 75-141): if the stored `notification_time` equals the
current `HH:MM` string, a subscriber with a city gets one weather fetch —
delivering either the weather message or an error notice — and a subscriber
without a city is only logged. -/
def personalStep (w : String → Except String String) (now_time : String)
    (u : UserSettings) : List SchedEvent :=
  match u.notification_time with
  | some t =>
    if t = now_time then
      match u.city with
      | some c =>
        match w c with
        | .ok _ => [.personalSent u.user_id]
        | .error _ => [.personalError u.user_id]
      | none => [.skipNoCity u.user_id]
    else []
  | none => []

/-- The body of `send_mass_notifications` for one subscriber: a subscriber
with a city gets one weather fetch — a successful fetch is delivered, a
failed fetch is only logged; a subscriber without a city gets nothing. -/
def massStep (w : String → Except String String) (u : UserSettings) :
    List SchedEvent :=
  match u.city with
  | some c =>
    match w c with
    | .ok _ => [.massSent u.user_id]
    | .error _ => [.massFetchFail u.user_id]
  | none => []

/-- Concatenation of a per-subscriber step over the snapshot, in order. -/
def tickOf (f : UserSettings → List SchedEvent) : List UserSettings → List SchedEvent
  | [] => []
  | u :: rest => f u ++ tickOf f rest

/-- One iteration of the scheduler loop: when the clock reads one of the
fixed broadcast times, the mass-notification pass runs over all subscribers;
then the personal pass compares each stored `notification_time` with the
formatted current time. -/
def schedulerTick (w : String → Except String String) (hours minutes : Nat)
    (users : List UserSettings) : List SchedEvent :=
  (if is_mass_notification_time hours minutes then tickOf (massStep w) users else [])
    ++ tickOf (personalStep w (formatHHMM hours minutes)) users

/-- Personal delivery attempt aimed at `uid` (weather message or error
notice on the personal path). -/
def isPersonalAttempt (uid : Int) : SchedEvent → Bool
  | .personalSent u => u == uid
  | .personalError u => u == uid
  | _ => false

/-- Broadcast delivery attempt aimed at `uid` (fetch issued on the broadcast
path). -/
def isMassAttempt (uid : Int) : SchedEvent → Bool
  | .massSent u => u == uid
  | .massFetchFail u => u == uid
  | _ => false

/-- Any broadcast-path event. -/
def isMassEvent : SchedEvent → Bool
  | .massSent _ => true
  | .massFetchFail _ => true
  | _ => false

/-- A message actually sent to `uid` (personal weather, personal error
notice, or broadcast weather). -/
def isMessageTo (uid : Int) : SchedEvent → Bool
  | .personalSent u => u == uid
  | .personalError u => u == uid
  | .massSent u => u == uid
  | _ => false

/-- The skipped-for-missing-city log note for `uid`. -/
def isSkipNote (uid : Int) : SchedEvent → Bool
  | .skipNoCity u => u == uid
  | _ => false

/-- The error notice sent to `uid` on the personal path. -/
def isPersonalErrorTo (uid : Int) : SchedEvent → Bool
  | .personalError u => u == uid
  | _ => false

/-- The successful personal weather message sent to `uid`. -/
def isPersonalSentTo (uid : Int) : SchedEvent → Bool
  | .personalSent u => u == uid
  | _ => false

lemma eventUid_personalStep {w : String → Except String String} {now : String}
    {v : UserSettings} {e : SchedEvent} (h : e ∈ personalStep w now v) :
    eventUid e = v.user_id := by
  unfold personalStep at h
  split at h
  · split at h
    · split at h
      · split at h <;> simp_all [eventUid]
      · simp_all [eventUid]
    · simp at h
  · simp at h

lemma eventUid_massStep {w : String → Except String String}
    {v : UserSettings} {e : SchedEvent} (h : e ∈ massStep w v) :
    eventUid e = v.user_id := by
  unfold massStep at h
  split at h
  · split at h <;> simp_all [eventUid]
  · simp at h

lemma countP_tickOf_append (f : UserSettings → List SchedEvent)
    (p : SchedEvent → Bool) (u : UserSettings) (rest : List UserSettings) :
    (tickOf f (u :: rest)).countP p = (f u).countP p + (tickOf f rest).countP p := by
  rw [show tickOf f (u :: rest) = f u ++ tickOf f rest from rfl, List.countP_append]

lemma countP_tickOf_zero (f : UserSettings → List SchedEvent)
    (p : SchedEvent → Bool) (uid : Int)
    (hcar : ∀ v e, e ∈ f v → eventUid e = v.user_id)
    (hp : ∀ e, p e = true → eventUid e = uid)
    (users : List UserSettings) (hall : ∀ v ∈ users, v.user_id ≠ uid) :
    (tickOf f users).countP p = 0 := by
  induction users with
  | nil => rfl
  | cons v rest ih =>
    rw [countP_tickOf_append]
    have h1 : (f v).countP p = 0 := by
      rw [List.countP_eq_zero]
      intro e he hpe
      exact hall v (List.mem_cons_self v rest)
        ((hcar v e he).symm.trans (hp e hpe))
    have h2 := ih (fun v hv => hall v (List.mem_cons_of_mem _ hv))
    omega

lemma countP_tickOf_eq (f : UserSettings → List SchedEvent)
    (p : SchedEvent → Bool) (uid : Int)
    (hcar : ∀ v e, e ∈ f v → eventUid e = v.user_id)
    (hp : ∀ e, p e = true → eventUid e = uid)
    (users : List UserSettings) (u : UserSettings)
    (hu : uidsUnique users) (hmem : u ∈ users) (huid : u.user_id = uid) :
    (tickOf f users).countP p = (f u).countP p := by
  induction users with
  | nil => exact absurd hmem (List.not_mem_nil u)
  | cons v rest ih =>
    rw [countP_tickOf_append]
    rcases List.mem_cons.mp hmem with h | h
    · subst h
      have hz : (tickOf f rest).countP p = 0 := by
        refine countP_tickOf_zero f p uid hcar hp rest ?_
        intro v hv
        have := uidsUnique_head hu v hv
        simp only [beq_eq_false_iff_ne] at this
        exact huid ▸ this
      omega
    · have hvz : (f v).countP p = 0 := by
        rw [List.countP_eq_zero]
        intro e he hpe
        have h1 := hcar v e he
        have h2 := hp e hpe
        have hne := uidsUnique_head hu u h
        simp only [beq_eq_false_iff_ne] at hne
        have h3 : v.user_id = uid := h1.symm.trans h2
        exact hne (huid.trans h3.symm)
      have := ih (uidsUnique_tail hu) h
      omega

lemma isPersonalAttempt_uid {uid : Int} {e : SchedEvent}
    (h : isPersonalAttempt uid e = true) : eventUid e = uid := by
  cases e <;> simp_all [isPersonalAttempt, eventUid]

lemma isMassAttempt_uid {uid : Int} {e : SchedEvent}
    (h : isMassAttempt uid e = true) : eventUid e = uid := by
  cases e <;> simp_all [isMassAttempt, eventUid]

lemma isMessageTo_uid {uid : Int} {e : SchedEvent}
    (h : isMessageTo uid e = true) : eventUid e = uid := by
  cases e <;> simp_all [isMessageTo, eventUid]

lemma isSkipNote_uid {uid : Int} {e : SchedEvent}
    (h : isSkipNote uid e = true) : eventUid e = uid := by
  cases e <;> simp_all [isSkipNote, eventUid]

lemma isPersonalErrorTo_uid {uid : Int} {e : SchedEvent}
    (h : isPersonalErrorTo uid e = true) : eventUid e = uid := by
  cases e <;> simp_all [isPersonalErrorTo, eventUid]

lemma isPersonalSentTo_uid {uid : Int} {e : SchedEvent}
    (h : isPersonalSentTo uid e = true) : eventUid e = uid := by
  cases e <;> simp_all [isPersonalSentTo, eventUid]

lemma countP_tickOf_false (f : UserSettings → List SchedEvent)
    (p : SchedEvent → Bool) (hall : ∀ v e, e ∈ f v → p e = false)
    (users : List UserSettings) : (tickOf f users).countP p = 0 := by
  induction users with
  | nil => rfl
  | cons v rest ih =>
    rw [countP_tickOf_append]
    have h1 : (f v).countP p = 0 := by
      rw [List.countP_eq_zero]
      intro e he hpe
      rw [hall v e he] at hpe
      exact Bool.false_ne_true hpe
    omega

lemma personalStep_not_due {w : String → Except String String} {now : String}
    {u : UserSettings} (ht : u.notification_time ≠ some now) :
    personalStep w now u = [] := by
  unfold personalStep
  cases hnt : u.notification_time with
  | none => rfl
  | some t =>
    have : ¬ (t = now) := fun he => ht (he ▸ hnt)
    simp [this]

lemma personalStep_due_nocity {w : String → Except String String} {now : String}
    {u : UserSettings} (ht : u.notification_time = some now)
    (hc : u.city = none) :
    personalStep w now u = [.skipNoCity u.user_id] := by
  simp [personalStep, ht, hc]

lemma personalStep_due_city_count {w : String → Except String String}
    {now : String} {u : UserSettings} {c : String}
    (ht : u.notification_time = some now) (hc : u.city = some c) :
    (personalStep w now u).countP (isPersonalAttempt u.user_id) = 1 := by
  cases hw : w c <;>
    simp [personalStep, ht, hc, hw, isPersonalAttempt, List.countP_cons]

lemma personalStep_error_count {w : String → Except String String}
    {now : String} {u : UserSettings} {c : String} {e : String}
    (ht : u.notification_time = some now) (hc : u.city = some c)
    (hw : w c = .error e) :
    (personalStep w now u).countP (isPersonalErrorTo u.user_id) = 1 := by
  simp [personalStep, ht, hc, hw, isPersonalErrorTo, List.countP_cons]

lemma personalStep_sent_count {w : String → Except String String}
    {now : String} {u : UserSettings} {c t : String}
    (ht : u.notification_time = some now) (hc : u.city = some c)
    (hw : w c = .ok t) :
    (personalStep w now u).countP (isPersonalSentTo u.user_id) = 1 := by
  simp [personalStep, ht, hc, hw, isPersonalSentTo, List.countP_cons]

lemma massStep_nocity {w : String → Except String String} {u : UserSettings}
    (hc : u.city = none) : massStep w u = [] := by
  simp [massStep, hc]

lemma massStep_city_count {w : String → Except String String}
    {u : UserSettings} {c : String} (hc : u.city = some c) :
    (massStep w u).countP (isMassAttempt u.user_id) = 1 := by
  cases hw : w c <;>
    simp [massStep, hc, hw, isMassAttempt, List.countP_cons]

lemma massStep_event_isMass {w : String → Except String String}
    {v : UserSettings} {e : SchedEvent} (he : e ∈ massStep w v) :
    isMassEvent e = true := by
  unfold massStep at he
  split at he
  · split at he <;> simp_all [isMassEvent]
  · simp at he

lemma personalStep_event_not_mass {w : String → Except String String}
    {now : String} {v : UserSettings} {e : SchedEvent}
    (he : e ∈ personalStep w now v) : isMassEvent e = false := by
  unfold personalStep at he
  split at he
  · split at he
    · split at he
      · split at he <;> simp_all [isMassEvent]
      · simp_all [isMassEvent]
    · simp at he
  · simp at he

lemma isPersonalAttempt_massStep {w : String → Except String String}
    {uid : Int} {v : UserSettings} {e : SchedEvent} (he : e ∈ massStep w v) :
    isPersonalAttempt uid e = false := by
  have := massStep_event_isMass he
  cases e <;> simp_all [isMassEvent, isPersonalAttempt]

lemma isPersonalErrorTo_massStep {w : String → Except String String}
    {uid : Int} {v : UserSettings} {e : SchedEvent} (he : e ∈ massStep w v) :
    isPersonalErrorTo uid e = false := by
  have := massStep_event_isMass he
  cases e <;> simp_all [isMassEvent, isPersonalErrorTo]

lemma isPersonalSentTo_massStep {w : String → Except String String}
    {uid : Int} {v : UserSettings} {e : SchedEvent} (he : e ∈ massStep w v) :
    isPersonalSentTo uid e = false := by
  have := massStep_event_isMass he
  cases e <;> simp_all [isMassEvent, isPersonalSentTo]

lemma isMassAttempt_personalStep {w : String → Except String String}
    {now : String} {uid : Int} {v : UserSettings} {e : SchedEvent}
    (he : e ∈ personalStep w now v) : isMassAttempt uid e = false := by
  have := personalStep_event_not_mass he
  cases e <;> simp_all [isMassEvent, isMassAttempt]

lemma massPart_countP_zero (w : String → Except String String)
    (hours minutes : Nat) (users : List UserSettings) (p : SchedEvent → Bool)
    (hall : ∀ v e, e ∈ massStep w v → p e = false) :
    (if is_mass_notification_time hours minutes
       then tickOf (massStep w) users else []).countP p = 0 := by
  split
  · exact countP_tickOf_false _ _ hall users
  · rfl

lemma isSkipNote_massStep {w : String → Except String String}
    {uid : Int} {v : UserSettings} {e : SchedEvent} (he : e ∈ massStep w v) :
    isSkipNote uid e = false := by
  have := massStep_event_isMass he
  cases e <;> simp_all [isMassEvent, isSkipNote]

example : formatHHMM 12 0 = "12:00" := by decide
example : formatHHMM 7 30 = "07:30" := by decide

/-! ## Claim theorems: scheduler tick -/

/-- **C6**: on a snapshot with unique subscriber ids (the store invariant),
one tick triggers exactly one personal delivery attempt for each subscriber
whose `notification_time` equals the current `HH:MM` string and whose city
is set, and zero personal attempts for a subscriber whose
`notification_time` differs; a time-matched subscriber with no city gets
exactly one skipped-log note and no message at all. -/
theorem personal_delivery_match_rule
    (w : String → Except String String) (h m : Nat) (users : List UserSettings)
    (u : UserSettings) (hu : uidsUnique users) (hmem : u ∈ users) :
    (u.notification_time = some (formatHHMM h m) →
      (∀ c, u.city = some c →
        (schedulerTick w h m users).countP (isPersonalAttempt u.user_id) = 1)
      ∧ (u.city = none →
        (schedulerTick w h m users).countP (isMessageTo u.user_id) = 0
        ∧ (schedulerTick w h m users).countP (isSkipNote u.user_id) = 1))
    ∧ (u.notification_time ≠ some (formatHHMM h m) →
        (schedulerTick w h m users).countP (isPersonalAttempt u.user_id) = 0) := by
  have hpersEq : ∀ (p : SchedEvent → Bool),
      (∀ e, p e = true → eventUid e = u.user_id) →
      (tickOf (personalStep w (formatHHMM h m)) users).countP p
        = (personalStep w (formatHHMM h m) u).countP p :=
    fun p hp => countP_tickOf_eq _ p u.user_id
      (fun v e he => eventUid_personalStep he) hp users u hu hmem rfl
  have hmassEq : ∀ (p : SchedEvent → Bool),
      (∀ e, p e = true → eventUid e = u.user_id) →
      (tickOf (massStep w) users).countP p = (massStep w u).countP p :=
    fun p hp => countP_tickOf_eq _ p u.user_id
      (fun v e he => eventUid_massStep he) hp users u hu hmem rfl
  refine ⟨fun hdue => ⟨fun c hc => ?_, fun hc => ⟨?_, ?_⟩⟩, fun hnot => ?_⟩
  · unfold schedulerTick
    rw [List.countP_append,
      massPart_countP_zero w h m users _ (fun v e he => isPersonalAttempt_massStep he),
      hpersEq _ (fun e he => isPersonalAttempt_uid he),
      personalStep_due_city_count hdue hc]
  · unfold schedulerTick
    rw [List.countP_append]
    have hm0 : (if is_mass_notification_time h m
        then tickOf (massStep w) users else []).countP (isMessageTo u.user_id) = 0 := by
      split
      · rw [hmassEq _ (fun e he => isMessageTo_uid he), massStep_nocity hc]
        rfl
      · rfl
    have hp0 : (tickOf (personalStep w (formatHHMM h m)) users).countP
        (isMessageTo u.user_id) = 0 := by
      rw [hpersEq _ (fun e he => isMessageTo_uid he), personalStep_due_nocity hdue hc]
      simp [isMessageTo, List.countP_cons]
    omega
  · unfold schedulerTick
    rw [List.countP_append,
      massPart_countP_zero w h m users _ (fun v e he => isSkipNote_massStep he),
      hpersEq _ (fun e he => isSkipNote_uid he),
      personalStep_due_nocity hdue hc]
    simp [isSkipNote, List.countP_cons]
  · unfold schedulerTick
    rw [List.countP_append,
      massPart_countP_zero w h m users _ (fun v e he => isPersonalAttempt_massStep he),
      hpersEq _ (fun e he => isPersonalAttempt_uid he),
      personalStep_not_due hnot]
    rfl

/-- Weather oracle used by concrete witnesses: fails for `"Badtown"`,
succeeds elsewhere. -/
def wOracle : String → Except String String :=
  fun c => if c = "Badtown" then Except.error "boom" else Except.ok "sunny"

/-- Subscribers used by concrete witnesses. -/
def subA : UserSettings := ⟨1, some "Springfield", some "08:00", false, none⟩

def subB : UserSettings := ⟨2, some "Shelbyville", some "08:00", false, none⟩

def subC : UserSettings := ⟨3, some "Ogdenville", some "09:00", false, none⟩

def subD : UserSettings := ⟨4, none, some "08:00", true, none⟩

/-- Witness for **C6** at a concrete snapshot and clock. -/
theorem personal_delivery_match_rule_witness :
    (uidsUnique [subA, subB, subC, subD] ∧ subA ∈ [subA, subB, subC, subD])
    ∧ ((subA.notification_time = some (formatHHMM 8 0) →
        (∀ c, subA.city = some c →
          (schedulerTick wOracle 8 0 [subA, subB, subC, subD]).countP
            (isPersonalAttempt subA.user_id) = 1)
        ∧ (subA.city = none →
          (schedulerTick wOracle 8 0 [subA, subB, subC, subD]).countP
            (isMessageTo subA.user_id) = 0
          ∧ (schedulerTick wOracle 8 0 [subA, subB, subC, subD]).countP
            (isSkipNote subA.user_id) = 1))
      ∧ (subA.notification_time ≠ some (formatHHMM 8 0) →
          (schedulerTick wOracle 8 0 [subA, subB, subC, subD]).countP
            (isPersonalAttempt subA.user_id) = 0)) :=
  ⟨⟨rfl, by decide⟩,
   personal_delivery_match_rule wOracle 8 0 [subA, subB, subC, subD] subA rfl (by decide)⟩

/-- **C7**: when the clock reads one of the two fixed broadcast times
(12:00 or 18:00 — the code's `(hours == 12 || hours == 18) && minutes == 0`
check), one tick attempts broadcast delivery exactly once to each subscriber
whose city is set — with no hypothesis on their personal
`notification_time` — and never to a subscriber whose city is unset; at any
other minute the tick produces no broadcast event at all. -/
theorem broadcast_match_rule
    (w : String → Except String String) (h m : Nat) (users : List UserSettings)
    (u : UserSettings) (hu : uidsUnique users) (hmem : u ∈ users) :
    ((h = 12 ∨ h = 18) ∧ m = 0 →
      is_mass_notification_time h m = true
      ∧ (formatHHMM h m = "12:00" ∨ formatHHMM h m = "18:00")
      ∧ (∀ c, u.city = some c →
          (schedulerTick w h m users).countP (isMassAttempt u.user_id) = 1)
      ∧ (u.city = none →
          (schedulerTick w h m users).countP (isMassAttempt u.user_id) = 0))
    ∧ (¬ ((h = 12 ∨ h = 18) ∧ m = 0) →
        (schedulerTick w h m users).countP isMassEvent = 0) := by
  have hmassEq : ∀ (p : SchedEvent → Bool),
      (∀ e, p e = true → eventUid e = u.user_id) →
      (tickOf (massStep w) users).countP p = (massStep w u).countP p :=
    fun p hp => countP_tickOf_eq _ p u.user_id
      (fun v e he => eventUid_massStep he) hp users u hu hmem rfl
  have hpers0 : ∀ uid, (tickOf (personalStep w (formatHHMM h m)) users).countP
      (isMassAttempt uid) = 0 :=
    fun uid => countP_tickOf_false _ _
      (fun v e he => isMassAttempt_personalStep he) users
  constructor
  · rintro ⟨hh, hm0⟩
    subst hm0
    have hmt : is_mass_notification_time h 0 = true := by
      rcases hh with h12 | h18
      · subst h12; decide
      · subst h18; decide
    refine ⟨hmt, ?_, fun c hc => ?_, fun hc => ?_⟩
    · rcases hh with h12 | h18
      · subst h12; exact Or.inl (by decide)
      · subst h18; exact Or.inr (by decide)
    · unfold schedulerTick
      rw [List.countP_append, if_pos hmt,
        hmassEq _ (fun e he => isMassAttempt_uid he),
        massStep_city_count hc, hpers0]
    · unfold schedulerTick
      rw [List.countP_append, if_pos hmt,
        hmassEq _ (fun e he => isMassAttempt_uid he),
        massStep_nocity hc, hpers0]
      rfl
  · intro hnot
    have hmf : ¬ (is_mass_notification_time h m = true) := by
      intro hb
      apply hnot
      unfold is_mass_notification_time at hb
      simp only [Bool.and_eq_true, Bool.or_eq_true, beq_iff_eq] at hb
      exact hb
    unfold schedulerTick
    rw [List.countP_append, if_neg hmf]
    have := countP_tickOf_false (personalStep w (formatHHMM h m)) isMassEvent
      (fun v e he => personalStep_event_not_mass he) users
    simpa using this

/-- Witness for **C7** at a concrete snapshot with the clock at 12:00. -/
theorem broadcast_match_rule_witness :
    (uidsUnique [subA, subD] ∧ subA ∈ [subA, subD])
    ∧ (((12 = 12 ∨ 12 = 18) ∧ 0 = 0 →
        is_mass_notification_time 12 0 = true
        ∧ (formatHHMM 12 0 = "12:00" ∨ formatHHMM 12 0 = "18:00")
        ∧ (∀ c, subA.city = some c →
            (schedulerTick wOracle 12 0 [subA, subD]).countP
              (isMassAttempt subA.user_id) = 1)
        ∧ (subA.city = none →
            (schedulerTick wOracle 12 0 [subA, subD]).countP
              (isMassAttempt subA.user_id) = 0))
      ∧ (¬ ((12 = 12 ∨ 12 = 18) ∧ 0 = 0) →
          (schedulerTick wOracle 12 0 [subA, subD]).countP isMassEvent = 0)) :=
  ⟨⟨rfl, by decide⟩,
   broadcast_match_rule wOracle 12 0 [subA, subD] subA rfl (by decide)⟩

/-- **C8**: for every subscriber due on the personal path whose weather
fetch fails, the tick delivers exactly one error notice to that subscriber,
and every other due subscriber with a successful fetch still gets exactly
one normal delivery in the same tick.  (The tick is embedded as a total
function, so the failure cannot raise out of the tick-processing routine.) -/
theorem tick_error_containment
    (w : String → Except String String) (h m : Nat) (users : List UserSettings)
    (u : UserSettings) (hu : uidsUnique users) (hmem : u ∈ users)
    (hdue : u.notification_time = some (formatHHMM h m))
    (c : String) (hcity : u.city = some c) (e : String)
    (hfail : w c = Except.error e) :
    (schedulerTick w h m users).countP (isPersonalErrorTo u.user_id) = 1
    ∧ (∀ v ∈ users, v.user_id ≠ u.user_id →
        v.notification_time = some (formatHHMM h m) →
        ∀ c' t, v.city = some c' → w c' = Except.ok t →
          (schedulerTick w h m users).countP (isPersonalSentTo v.user_id) = 1) := by
  constructor
  · unfold schedulerTick
    rw [List.countP_append,
      massPart_countP_zero w h m users _ (fun v e' he => isPersonalErrorTo_massStep he),
      countP_tickOf_eq _ _ u.user_id (fun v e' he => eventUid_personalStep he)
        (fun e' he => isPersonalErrorTo_uid he) users u hu hmem rfl,
      personalStep_error_count hdue hcity hfail]
  · intro v hv hne hvdue c' t hvcity hvok
    unfold schedulerTick
    rw [List.countP_append,
      massPart_countP_zero w h m users _ (fun v' e' he => isPersonalSentTo_massStep he),
      countP_tickOf_eq _ _ v.user_id (fun v' e' he => eventUid_personalStep he)
        (fun e' he => isPersonalSentTo_uid he) users v hu hv rfl,
      personalStep_sent_count hvdue hvcity hvok]

/-- Subscriber whose city makes the witness oracle fail. -/
def subE : UserSettings := ⟨5, some "Badtown", some "07:30", false, none⟩

/-- Subscriber due at the same minute whose fetch succeeds. -/
def subF : UserSettings := ⟨6, some "Springfield", some "07:30", false, none⟩

/-- Witness for **C8**: at 07:30 the failing subscriber gets exactly one
error notice and the unrelated subscriber still gets their delivery. -/
theorem tick_error_containment_witness :
    (uidsUnique [subE, subF] ∧ subE ∈ [subE, subF]
      ∧ subE.notification_time = some (formatHHMM 7 30)
      ∧ subE.city = some "Badtown"
      ∧ wOracle "Badtown" = Except.error "boom")
    ∧ ((schedulerTick wOracle 7 30 [subE, subF]).countP
        (isPersonalErrorTo subE.user_id) = 1
      ∧ (∀ v ∈ [subE, subF], v.user_id ≠ subE.user_id →
          v.notification_time = some (formatHHMM 7 30) →
          ∀ c' t, v.city = some c' → wOracle c' = Except.ok t →
            (schedulerTick wOracle 7 30 [subE, subF]).countP
              (isPersonalSentTo v.user_id) = 1)) :=
  ⟨⟨rfl, by decide, by decide, rfl, rfl⟩,
   tick_error_containment wOracle 7 30 [subE, subF] subE rfl (by decide)
     (by decide) "Badtown" rfl "boom" rfl⟩

/-! ## Claim theorems: store initialisation (`JsonStorage::new`) -/

/-- The outcome of `fs::read_to_string` at startup: the file is missing, the
read fails for another reason, or it yields a content string. -/
inductive LoadInput where
  | missing : LoadInput
  | readError : LoadInput
  | content : String → LoadInput

/-- The observable outcome of store initialisation: the initial in-memory
table, and whether the corrupt-file backup copy (`{path}.backup`) was
issued. -/
structure LoadResult where
  table : List UserSettings
  backupCreated : Bool
deriving Repr, DecidableEq

/-- `JsonStorage::new` from `src/storage.rs`, with `serde_json::from_str`
abstracted as the `parse` parameter and the backup `fs::copy` modelled on
its success path: a missing file or a read error yields an empty table; a
content whose trim is empty yields an empty table; parseable content yields
the parsed records; unparseable content yields an empty table after the
backup copy is issued.  Every case returns a result — initialisation never
fails. -/
def jsonStorageNew (parse : String → Option (List UserSettings)) :
    LoadInput → LoadResult
  | .missing => ⟨[], false⟩
  | .readError => ⟨[], false⟩
  | .content s =>
    if strTrim s = "" then ⟨[], false⟩
    else
      match parse s with
      | some users => ⟨users, false⟩
      | none => ⟨[], true⟩

/-- **C9**: initialising the store from a non-empty backing file that does
not parse yields an empty table and issues the `.backup` copy; a missing
file, or a file whose content trims to empty, yields an empty table with no
backup and no error. -/
theorem load_corruption_recovery
    (parse : String → Option (List UserSettings)) (s : String)
    (hne : strTrim s ≠ "") (hbad : parse s = none) :
    jsonStorageNew parse (.content s) = ⟨[], true⟩
    ∧ jsonStorageNew parse .missing = ⟨[], false⟩
    ∧ (∀ s', strTrim s' = "" → jsonStorageNew parse (.content s') = ⟨[], false⟩) := by
  refine ⟨?_, rfl, ?_⟩
  · simp [jsonStorageNew, hne, hbad]
  · intro s' hs'
    simp [jsonStorageNew, hs']

/-- Witness for **C9** at a concrete unparseable content. -/
theorem load_corruption_recovery_witness :
    (strTrim "garbage" ≠ "" ∧ (fun _ : String => (none : Option (List UserSettings))) "garbage" = none)
    ∧ (jsonStorageNew (fun _ => none) (.content "garbage") = ⟨[], true⟩
      ∧ jsonStorageNew (fun _ => none) .missing = ⟨[], false⟩
      ∧ (∀ s', strTrim s' = "" →
          jsonStorageNew (fun _ => none) (.content s') = ⟨[], false⟩)) :=
  ⟨⟨by decide, rfl⟩,
   load_corruption_recovery (fun _ => none) "garbage" (by decide) rfl⟩

/-! ## The three `escape_markdown_v2` functions (C10)

`src/utils.rs` and `src/scheduler.rs` each carry a copy escaping the 18
MarkdownV2 special characters with one backslash; `src/main.rs` carries a
third copy that treats `'!'` specially, emitting a double backslash. -/

/-- The `special_chars` array of `src/utils.rs` (backtick and braces written
via their code points). -/
def special_chars_utils : List Char :=
  ['_', '*', '[', ']', '(', ')', '~', Char.ofNat 96, '>', '#', '+', '-', '=',
   '|', Char.ofNat 123, Char.ofNat 125, '.', '!']

/-- The (textually separate, identical) `special_chars` array of
`src/scheduler.rs`. -/
def special_chars_scheduler : List Char :=
  ['_', '*', '[', ']', '(', ')', '~', Char.ofNat 96, '>', '#', '+', '-', '=',
   '|', Char.ofNat 123, Char.ofNat 125, '.', '!']

/-- The special-character array of `src/main.rs`: the same characters
without `'!'`, which that copy handles separately. -/
def special_chars_main : List Char :=
  ['_', '*', '[', ']', '(', ')', '~', Char.ofNat 96, '>', '#', '+', '-', '=',
   '|', Char.ofNat 123, Char.ofNat 125, '.']

/-- `escape_markdown_v2` from `src/utils.rs`: prefix every special character
with one backslash. -/
def escape_markdown_v2_utils : List Char → List Char
  | [] => []
  | c :: rest =>
    (if c ∈ special_chars_utils then ['\\', c] else [c])
      ++ escape_markdown_v2_utils rest

/-- `escape_markdown_v2` from `src/scheduler.rs` (same body over its own
array). -/
def escape_markdown_v2_scheduler : List Char → List Char
  | [] => []
  | c :: rest =>
    (if c ∈ special_chars_scheduler then ['\\', c] else [c])
      ++ escape_markdown_v2_scheduler rest

/-- `escape_markdown_v2` from `src/main.rs`: `'!'` becomes
backslash-backslash-`'!'` (`push_str("\\\\!")`); the other special
characters get one backslash. -/
def escape_markdown_v2_main : List Char → List Char
  | [] => []
  | c :: rest =>
    (if c = '!' then ['\\', '\\', '!']
     else if c ∈ special_chars_main then ['\\', c]
     else [c]) ++ escape_markdown_v2_main rest

/-- String-level wrapper for the `utils.rs` escape. -/
def escapeMarkdownUtils (s : String) : String := ⟨escape_markdown_v2_utils s.data⟩

/-- String-level wrapper for the `scheduler.rs` escape. -/
def escapeMarkdownScheduler (s : String) : String := ⟨escape_markdown_v2_scheduler s.data⟩

/-- String-level wrapper for the `main.rs` escape. -/
def escapeMarkdownMain (s : String) : String := ⟨escape_markdown_v2_main s.data⟩

lemma escape_sched_eq_utils (cs : List Char) :
    escape_markdown_v2_scheduler cs = escape_markdown_v2_utils cs := by
  induction cs with
  | nil => rfl
  | cons c rest ih =>
    unfold escape_markdown_v2_scheduler escape_markdown_v2_utils
    rw [ih, show special_chars_scheduler = special_chars_utils from rfl]

lemma mem_main_of_not_bang {c : Char} (h : ¬ c = '!') :
    c ∈ special_chars_utils ↔ c ∈ special_chars_main := by
  simp [special_chars_utils, special_chars_main, h]

lemma escape_main_eq_utils (cs : List Char) (h : '!' ∉ cs) :
    escape_markdown_v2_main cs = escape_markdown_v2_utils cs := by
  induction cs with
  | nil => rfl
  | cons c rest ih =>
    rw [List.mem_cons] at h
    push_neg at h
    obtain ⟨h1, h2⟩ := h
    have hc : ¬ c = '!' := fun he => h1 he.symm
    unfold escape_markdown_v2_main escape_markdown_v2_utils
    rw [if_neg hc, ih h2]
    congr 1
    by_cases hm : c ∈ special_chars_main
    · rw [if_pos hm, if_pos ((mem_main_of_not_bang hc).mpr hm)]
    · rw [if_neg hm, if_neg (fun hx => hm ((mem_main_of_not_bang hc).mp hx))]

/-- **C10 counterexample**: on the input `"!"`, the `main.rs` escape emits a
double backslash while the `utils.rs` (and `scheduler.rs`) escapes emit a
single one — the three functions are not all extensionally equal. -/
theorem escape_markdown_counterexample :
    escapeMarkdownMain "!" ≠ escapeMarkdownUtils "!"
    ∧ escapeMarkdownScheduler "!" = escapeMarkdownUtils "!" := by
  decide

/-- **C10** (amended): the `scheduler.rs` and `utils.rs` escapes are
extensionally equal on every string; the `main.rs` escape agrees with them
on every string not containing `'!'`, but differs on strings containing
`'!'` (it doubles that escape). -/
theorem escape_markdown_equivalence :
    (∀ s : String, escapeMarkdownScheduler s = escapeMarkdownUtils s)
    ∧ (∀ s : String, '!' ∉ s.data → escapeMarkdownMain s = escapeMarkdownUtils s) :=
  ⟨fun s => congrArg String.mk (escape_sched_eq_utils s.data),
   fun s h => congrArg String.mk (escape_main_eq_utils s.data h)⟩

/-- Witness for **C10** on a concrete `'!'`-free string containing another
special character. -/
theorem escape_markdown_equivalence_witness :
    ('!' ∉ ("weather.today").data)
    ∧ escapeMarkdownMain "weather.today" = escapeMarkdownUtils "weather.today" :=
  ⟨by decide, escape_markdown_equivalence.2 "weather.today" (by decide)⟩
